import Mathlib

/-!
Verification development for the content pipeline of the AscendedSocial web
application: positivity scoring, safety screening, ranking, trending
computation, and the moderation workflow state machine.  Each definition is a
shallow embedding of the corresponding TypeScript function; database-backed
operations are modelled as explicit state transformers over lists of rows.
-/

/-! ## Generic string helpers

JavaScript `String.prototype.includes` (substring containment) and
`String.prototype.toLowerCase`, modelled over lists of character code points.
-/

/-- Code-point map of `toLowerCase`, restricted to ASCII as in the keyword data. -/
def lowerCode (n : Nat) : Nat := if 65 ≤ n && n ≤ 90 then n + 32 else n

/-- Code points of a string. -/
def codes (s : String) : List Nat := s.data.map Char.toNat

/-- Lower-cased code points of a string (JS `s.toLowerCase()`). -/
def lowerCodes (s : String) : List Nat := (codes s).map lowerCode

/-- Whether `pat` occurs at the start of `t`. -/
def startsWithSeg : List Nat → List Nat → Bool
  | [], _ => true
  | _ :: _, [] => false
  | p :: ps, c :: cs => p == c && startsWithSeg ps cs

/-- Whether `pat` occurs as a contiguous segment of the first list
(JS `text.includes(pat)`). -/
def segIncludes : List Nat → List Nat → Bool
  | [], pat => pat.isEmpty
  | c :: rest, pat => startsWithSeg pat (c :: rest) || segIncludes rest pat

/-! ## Positivity analyzer (`server/services/positivity-analyzer.ts`)

The fallback path of `analyzePositivity`, used whenever no OpenAI key is
configured or the external call fails.
-/

def positiveWords : List String :=
  ["love", "happy", "joy", "peace", "gratitude", "inspire", "hope",
   "beautiful", "amazing", "wonderful", "blessing", "heal", "grow",
   "empower", "uplift", "kindness", "compassion", "harmony", "calm",
   "grateful", "positive", "support", "strength", "courage", "light",
   "meditation", "mindful", "wellness", "yoga", "spirit", "nature"]

def negativeWords : List String :=
  ["hate", "angry", "sad", "fear", "anxiety", "stress", "pain",
   "fail", "ugly", "terrible", "awful", "destroy", "fight", "war",
   "toxic", "bad", "worst", "negative", "depress", "hopeless"]

/-- Positive keywords occurring as substrings of the lower-cased content. -/
def posHits (content : String) : List String :=
  positiveWords.filter (fun w => segIncludes (lowerCodes content) (codes w))

/-- Negative keywords occurring as substrings of the lower-cased content. -/
def negHits (content : String) : List String :=
  negativeWords.filter (fun w => segIncludes (lowerCodes content) (codes w))

/-- Keyword-based fallback positivity score: baseline 50, plus 5 per positive
keyword hit, minus 8 per negative keyword hit, clamped to the range 0 to 100
(`Math.min(100, Math.max(0, score))`). -/
def fallbackPositivityScore (content : String) : Int :=
  let score : Int := 50 + (posHits content).length * 5 - (negHits content).length * 8
  min 100 (max 0 score)

/-- The post text of the end-to-end scenario in the specification. -/
def scenarioText : String := "I hate everything, it\x27s hopeless"

/-! ## Safety moderation (`safety-moderation.ts`, in `src/unnamed/part_003`)

The external call of `checkContentSafety` is modelled by a `SafetyService`
value describing which of the code paths the environment takes: no API key
configured, a fetch that throws, a non-OK HTTP response, or an OK response
carrying a list of moderation results.  The embedding is a total function, so
it can never throw.
-/

inductive RiskLevel where
  | none
  | low
  | medium
  | high
deriving DecidableEq

structure SafetyAssessment where
  isSafe : Bool
  flags : List String
  riskLevel : RiskLevel
deriving DecidableEq

/-- One element of `data.results` in the OpenAI moderation response: the
`flagged` boolean plus the `categories` object, modelled as association pairs. -/
structure ModApiResult where
  flagged : Bool
  categories : List (String × Bool)
deriving DecidableEq

/-- Environment of `checkContentSafety`: which external-call path is taken. -/
inductive SafetyService where
  | unconfigured
  | fetchFailure
  | httpError
  | responding (results : List ModApiResult)
deriving DecidableEq

def highRiskCategories : List String :=
  ["sexual/minors", "violence/graphic", "self-harm/intent", "self-harm/instructions"]

/-- Category names whose flag is set (the loop over `Object.entries(categories)`). -/
def flaggedCategories (r : ModApiResult) : List String :=
  (r.categories.filter (fun c => c.2)).map (fun c => c.1)

/-- Risk derivation for a parsed moderation result (the tail of
`checkContentSafety` after a successful response). -/
def assessModResult (r : ModApiResult) : SafetyAssessment :=
  let fc := flaggedCategories r
  let hasHighRisk := fc.any (fun c => highRiskCategories.contains c)
  let riskLevel :=
    if r.flagged then
      if hasHighRisk then RiskLevel.high
      else if 2 < fc.length then RiskLevel.high
      else if 0 < fc.length then RiskLevel.medium
      else RiskLevel.none
    else RiskLevel.none
  { isSafe := !r.flagged, flags := fc, riskLevel := riskLevel }

/-- The safety screener `checkContentSafety` as a function of its environment. -/
def checkContentSafety (svc : SafetyService) : SafetyAssessment :=
  match svc with
  | SafetyService.unconfigured =>
      { isSafe := true, flags := [], riskLevel := RiskLevel.none }
  | SafetyService.fetchFailure =>
      { isSafe := false, flags := ["api_error"], riskLevel := RiskLevel.medium }
  | SafetyService.httpError =>
      { isSafe := false, flags := ["api_error"], riskLevel := RiskLevel.medium }
  | SafetyService.responding results =>
      match results.head? with
      | Option.none => { isSafe := true, flags := [], riskLevel := RiskLevel.none }
      | Option.some r => assessModResult r

/-! ## Ranking engine (`ranking-engine.ts`, in `src/unnamed/part_004`)

Feed items carry the two fields the ranking engine reads: the nullable
positivity score and the creation time (epoch milliseconds of
`new Date(createdAt).getTime()`); an id distinguishes items.  The JS stable
`Array.prototype.sort` with the tier-then-recency comparator is modelled by
insertion sort with respect to the relation `rankLE`, which holds exactly when
the comparator returns a non-positive number.
-/

inductive VisibilityTier where
  | featured
  | standard
  | reduced
  | suppressed
deriving DecidableEq

structure FeedItem where
  id : Nat
  positivityScore : Option Int
  createdAt : Int
deriving DecidableEq

def getVisibilityTier : Option Int → VisibilityTier
  | Option.none => VisibilityTier.standard
  | Option.some p =>
      if p ≥ 90 then VisibilityTier.featured
      else if p ≥ 50 then VisibilityTier.standard
      else if p ≥ 30 then VisibilityTier.reduced
      else VisibilityTier.suppressed

/-- The `tierOrder` lookup table of `applyPositivityRanking`. -/
def tierOrder : VisibilityTier → Nat
  | VisibilityTier.featured => 0
  | VisibilityTier.standard => 1
  | VisibilityTier.reduced => 2
  | VisibilityTier.suppressed => 3

/-- Comparator relation of the ranking sort: `a` precedes `b` when `a` has a
strictly smaller tier order, or the same tier and a later (or equal) creation
time. -/
def rankLE (a b : FeedItem) : Prop :=
  tierOrder (getVisibilityTier a.positivityScore) < tierOrder (getVisibilityTier b.positivityScore)
    ∨ (tierOrder (getVisibilityTier a.positivityScore) =
          tierOrder (getVisibilityTier b.positivityScore)
        ∧ b.createdAt ≤ a.createdAt)

instance : DecidableRel rankLE := fun a b => by
  unfold rankLE
  infer_instance

instance : IsTotal FeedItem rankLE where
  total a b := by
    unfold rankLE
    rcases Nat.lt_trichotomy (tierOrder (getVisibilityTier a.positivityScore))
        (tierOrder (getVisibilityTier b.positivityScore)) with h | h | h
    · exact Or.inl (Or.inl h)
    · rcases le_total b.createdAt a.createdAt with hc | hc
      · exact Or.inl (Or.inr ⟨h, hc⟩)
      · exact Or.inr (Or.inr ⟨h.symm, hc⟩)
    · exact Or.inr (Or.inl h)

instance : IsTrans FeedItem rankLE where
  trans a b c hab hbc := by
    unfold rankLE at hab hbc ⊢
    rcases hab with h1 | ⟨e1, t1⟩
    · rcases hbc with h2 | ⟨e2, t2⟩
      · exact Or.inl (h1.trans h2)
      · exact Or.inl (e2 ▸ h1)
    · rcases hbc with h2 | ⟨e2, t2⟩
      · exact Or.inl (e1 ▸ h2)
      · exact Or.inr ⟨e1.trans e2, t2.trans t1⟩

/-- The ranking engine: drop suppressed items, then sort by tier order and,
within a tier, by descending creation time. -/
def applyPositivityRanking (items : List FeedItem) : List FeedItem :=
  List.insertionSort rankLE
    (items.filter (fun i => decide (getVisibilityTier i.positivityScore ≠ VisibilityTier.suppressed)))

/-- Sample feed used by the witness of the ranking theorem. -/
def sampleFeed : List FeedItem :=
  [{ id := 1, positivityScore := Option.some 95, createdAt := 10 },
   { id := 2, positivityScore := Option.some 20, createdAt := 99 },
   { id := 3, positivityScore := Option.none, createdAt := 5 }]

/-! ## Trending calculator (`server/services/trending-calculator.ts`)

The per-element recomputation loop of `calculateElementTrending`, modelled as
a state transformer over the list of trending records.  JS floating-point
arithmetic is embedded as exact rational arithmetic: the base score is
`views*0.6 + engagement*0.4`, the simplified video engagement is
`Math.floor(viewCount * 0.3)`, and `toFixed(2)` is a deterministic rendering
of the score which the model keeps exact.  The upsert looks rows up by the
composite key (content id, content type) and updates the row carrying the
primary key of the first hit, which `updateFirst` models.
-/

inductive ContentType where
  | video
  | post
deriving DecidableEq

inductive ElementCategory where
  | Water
  | Fire
  | Earth
  | Air
  | Spiritual
deriving DecidableEq

/-- Positivity multiplier shared by the trending calculator and the
recommendation engine: 90+ gives 3x, 70-89 gives 1.5x, 50-69 gives 1x, below
50 gives 0.5x. -/
def getPositivityMultiplier (score : Int) : ℚ :=
  if score ≥ 90 then 3
  else if score ≥ 70 then 3/2
  else if score ≥ 50 then 1
  else 1/2

structure TrendingRecord where
  contentId : Nat
  contentType : ContentType
  elementCategory : ElementCategory
  trendingScore : ℚ
  viewCount24h : Nat
  engagementCount24h : Nat
deriving DecidableEq

/-- One iteration's inputs: content key, category, view and engagement
counters, and the nullable positivity score. -/
structure TrendInput where
  contentId : Nat
  contentType : ContentType
  elementCategory : ElementCategory
  views : Nat
  engagement : Nat
  positivity : Option Int
deriving DecidableEq

/-- Trending score of one item: `views*0.6 + engagement*0.4`, multiplied by
the positivity multiplier only when a positivity score is present. -/
def trendScore (i : TrendInput) : ℚ :=
  let base : ℚ := (i.views : ℚ) * (6/10) + (i.engagement : ℚ) * (4/10)
  match i.positivity with
  | Option.none => base
  | Option.some p => base * getPositivityMultiplier p

def inputKey (i : TrendInput) : Nat × ContentType := (i.contentId, i.contentType)

def recordKey (r : TrendingRecord) : Nat × ContentType := (r.contentId, r.contentType)

/-- The composite-key lookup predicate of the upsert's select. -/
def keyMatch (i : TrendInput) (r : TrendingRecord) : Bool :=
  decide (r.contentId = i.contentId) && decide (r.contentType = i.contentType)

/-- Replace the first element satisfying the predicate; models the SQL update
targeting the primary key of the first selected row. -/
def updateFirst {α : Type} (p : α → Bool) (f : α → α) : List α → List α
  | [] => []
  | x :: xs => if p x then f x :: xs else x :: updateFirst p f xs

/-- Field update applied when a record for the key already exists: score and
24h counters are rewritten, the stored element category is left alone. -/
def applyTrend (i : TrendInput) (r : TrendingRecord) : TrendingRecord :=
  { r with trendingScore := trendScore i, viewCount24h := i.views,
           engagementCount24h := i.engagement }

/-- Row inserted when no record for the key exists. -/
def mkTrendRecord (i : TrendInput) : TrendingRecord :=
  { contentId := i.contentId, contentType := i.contentType,
    elementCategory := i.elementCategory, trendingScore := trendScore i,
    viewCount24h := i.views, engagementCount24h := i.engagement }

/-- Upsert of one item: update in place when a record with the composite key
exists, insert otherwise. -/
def upsertTrend (s : List TrendingRecord) (i : TrendInput) : List TrendingRecord :=
  if (s.find? (keyMatch i)).isSome then updateFirst (keyMatch i) (applyTrend i) s
  else s ++ [mkTrendRecord i]

/-- The recomputation loop over a batch of items. -/
def runTrending (s : List TrendingRecord) (items : List TrendInput) : List TrendingRecord :=
  items.foldl upsertTrend s

/-- Published video row as read by the calculator. -/
structure VideoTrendRow where
  id : Nat
  viewCount : Nat
  positivityScore : Option Int
deriving DecidableEq

/-- Published post row as read by the calculator. -/
structure PostTrendRow where
  id : Nat
  viewCount : Nat
  engagementScore : Option Nat
  positivityScore : Option Int
deriving DecidableEq

/-- Inputs derived from a video row: total views as the 24h proxy and the
simplified engagement `Math.floor(viewCount * 0.3)`. -/
def videoTrendInput (elem : ElementCategory) (v : VideoTrendRow) : TrendInput :=
  { contentId := v.id, contentType := ContentType.video, elementCategory := elem,
    views := v.viewCount, engagement := 3 * v.viewCount / 10,
    positivity := v.positivityScore }

/-- Inputs derived from a post row: `engagementScore || 0` as engagement. -/
def postTrendInput (elem : ElementCategory) (p : PostTrendRow) : TrendInput :=
  { contentId := p.id, contentType := ContentType.post, elementCategory := elem,
    views := p.viewCount, engagement := p.engagementScore.getD 0,
    positivity := p.positivityScore }

/-- One element's recomputation: upsert all published videos of the element,
then all published posts. -/
def calculateElementTrending (elem : ElementCategory) (vids : List VideoTrendRow)
    (psts : List PostTrendRow) (s : List TrendingRecord) : List TrendingRecord :=
  runTrending s (vids.map (videoTrendInput elem) ++ psts.map (postTrendInput elem))

/-- Pairwise distinct composite keys among a batch of inputs. -/
def distinctKeys (items : List TrendInput) : Prop :=
  items.Pairwise (fun a b => inputKey a ≠ inputKey b)

/-- At most one trending record per composite key. -/
def uniqueRecordKeys (s : List TrendingRecord) : Prop :=
  s.Pairwise (fun a b => recordKey a ≠ recordKey b)

/-- Sample video rows used by the witness of the trending theorem. -/
def demoVids : List VideoTrendRow :=
  [{ id := 1, viewCount := 100, positivityScore := Option.some 95 }]

/-- Sample post rows used by the witness of the trending theorem. -/
def demoPsts : List PostTrendRow :=
  [{ id := 1, viewCount := 50, engagementScore := Option.some 4,
     positivityScore := Option.some 40 }]

/-! ## Moderation workflow (`server/services/moderation-workflow.ts`)

The orchestrator's database effects are modelled as state transformers over
`DBState`, whose fields are the rows of the `videos`, `posts`,
`moderationQueue` and `auditLog` tables.  The three-stage classify, screen and
score pipeline of a processing run is summarised by a `PipelineOutcome`: the
three stage results on success, or the caught error message when any stage
raised.  SQL `update ... where` is modelled by `updateRows`, which rewrites
every matching row, and inserts append to the row list.  `new Date()` in
`resolveModeration` is passed in as the `now` argument.  All operations are
pure Lean functions, hence deterministic in their inputs.
-/

inductive ModerationStatus where
  | auto_approved
  | requires_review
  | rejected
deriving DecidableEq

inductive UploadStatus where
  | Published
  | Flagged
  | UnderReview
deriving DecidableEq

inductive ModerationPriority where
  | urgent
  | high
  | normal
  | low
deriving DecidableEq

inductive QueueStatus where
  | pending
  | in_review
  | resolved
deriving DecidableEq

inductive AuditAction where
  | publish
  | moderate
  | reject
deriving DecidableEq

inductive Decision where
  | approved
  | rejected
deriving DecidableEq

structure AIAnalysisResult where
  elementType : ElementCategory
  confidence : ℚ
  reasoning : String
deriving DecidableEq

structure VideoRec where
  id : Nat
  elementCategory : Option ElementCategory
  aiAnalysisResult : Option AIAnalysisResult
  safetyAssessment : Option SafetyAssessment
  moderationStatus : ModerationStatus
  uploadStatus : UploadStatus
  positivityScore : Option Int
  moderationNotes : Option String
  moderatedBy : Option String
  moderatedAt : Option Int
deriving DecidableEq

structure PostRec where
  id : Nat
  elementCategory : Option ElementCategory
  safetyAssessment : Option SafetyAssessment
  moderationStatus : ModerationStatus
  uploadStatus : UploadStatus
  positivityScore : Option Int
deriving DecidableEq

structure QueueEntry where
  contentId : Nat
  contentType : ContentType
  aiFlaggedReason : String
  priority : ModerationPriority
  status : QueueStatus
deriving DecidableEq

/-- The structured `changes` payload of an audit row. -/
inductive AuditChanges where
  | pipeline (analysis : AIAnalysisResult) (safety : SafetyAssessment)
      (moderationStatus : ModerationStatus) (positivityScore : Int)
  | resolution (decision : Decision) (notes : Option String)
deriving DecidableEq

structure AuditEntry where
  action : AuditAction
  actorId : String
  contentId : Nat
  contentType : ContentType
  changes : AuditChanges
deriving DecidableEq

structure DBState where
  videos : List VideoRec
  posts : List PostRec
  queue : List QueueEntry
  audit : List AuditEntry
deriving DecidableEq

/-- SQL `update ... set f ... where m`: rewrite every matching row. -/
def updateRows {α : Type} (m : α → Bool) (f : α → α) (l : List α) : List α :=
  l.map (fun x => if m x then f x else x)

/-- Outcome of the three-stage pipeline: the analysis, safety and positivity
results, or the caught error's message. -/
inductive PipelineOutcome where
  | ok (analysis : AIAnalysisResult) (safety : SafetyAssessment) (positivityScore : Int)
  | failed (message : String)
deriving DecidableEq

/-- The ternary expression mapping moderation status to upload status, written
identically in `processVideoUpload` and `processPostCreation`. -/
def uploadStatusFor (m : ModerationStatus) : UploadStatus :=
  if m = ModerationStatus.auto_approved then UploadStatus.Published
  else if m = ModerationStatus.rejected then UploadStatus.Flagged
  else UploadStatus.UnderReview

/-- Video-upload processing: decide the moderation status, enqueue a review
item where the policy says so, update the video row, append an audit row; on
pipeline failure force the video to requires-review and enqueue a
high-priority entry naming the error. -/
def processVideoUpload (videoId : Nat) (actorId : String) (pipe : PipelineOutcome)
    (s : DBState) : DBState × Bool × ModerationStatus :=
  match pipe with
  | PipelineOutcome.ok analysis safety pos =>
      let moderationStatus :=
        if !safety.isSafe then
          (if safety.riskLevel = RiskLevel.high then ModerationStatus.rejected
           else ModerationStatus.requires_review)
        else if analysis.confidence < 1/2 then ModerationStatus.requires_review
        else ModerationStatus.auto_approved
      let queue1 :=
        if !safety.isSafe then
          s.queue ++ [{ contentId := videoId, contentType := ContentType.video,
                        aiFlaggedReason := String.intercalate (", ") safety.flags,
                        priority := if safety.riskLevel = RiskLevel.high then
                            ModerationPriority.urgent
                          else ModerationPriority.high,
                        status := QueueStatus.pending }]
        else if analysis.confidence < 1/2 then
          s.queue ++ [{ contentId := videoId, contentType := ContentType.video,
                        aiFlaggedReason :=
                          "Low categorization confidence: " ++ toString analysis.confidence,
                        priority := ModerationPriority.normal,
                        status := QueueStatus.pending }]
        else s.queue
      let videos1 := updateRows (fun v => decide (v.id = videoId))
        (fun v => { v with elementCategory := Option.some analysis.elementType,
                           aiAnalysisResult := Option.some analysis,
                           safetyAssessment := Option.some safety,
                           moderationStatus := moderationStatus,
                           uploadStatus := uploadStatusFor moderationStatus,
                           positivityScore := Option.some pos }) s.videos
      let audit1 := s.audit ++
        [{ action := if moderationStatus = ModerationStatus.auto_approved then
              AuditAction.publish
            else AuditAction.moderate,
           actorId := actorId, contentId := videoId, contentType := ContentType.video,
           changes := AuditChanges.pipeline analysis safety moderationStatus pos }]
      ({ videos := videos1, posts := s.posts, queue := queue1, audit := audit1 },
        true, moderationStatus)
  | PipelineOutcome.failed msg =>
      let videos1 := updateRows (fun v => decide (v.id = videoId))
        (fun v => { v with moderationStatus := ModerationStatus.requires_review,
                           uploadStatus := UploadStatus.UnderReview }) s.videos
      let queue1 := s.queue ++
        [{ contentId := videoId, contentType := ContentType.video,
           aiFlaggedReason := "Processing error: " ++ msg,
           priority := ModerationPriority.high, status := QueueStatus.pending }]
      ({ videos := videos1, posts := s.posts, queue := queue1, audit := s.audit },
        false, ModerationStatus.requires_review)

/-- Post-creation processing: same policy without the low-confidence branch;
on pipeline failure only the post row is updated — no queue entry is inserted. -/
def processPostCreation (postId : Nat) (actorId : String) (pipe : PipelineOutcome)
    (s : DBState) : DBState × Bool × ModerationStatus :=
  match pipe with
  | PipelineOutcome.ok analysis safety pos =>
      let moderationStatus :=
        if !safety.isSafe then
          (if safety.riskLevel = RiskLevel.high then ModerationStatus.rejected
           else ModerationStatus.requires_review)
        else ModerationStatus.auto_approved
      let queue1 :=
        if !safety.isSafe then
          s.queue ++ [{ contentId := postId, contentType := ContentType.post,
                        aiFlaggedReason := String.intercalate (", ") safety.flags,
                        priority := if safety.riskLevel = RiskLevel.high then
                            ModerationPriority.urgent
                          else ModerationPriority.high,
                        status := QueueStatus.pending }]
        else s.queue
      let posts1 := updateRows (fun p => decide (p.id = postId))
        (fun p => { p with elementCategory := Option.some analysis.elementType,
                           safetyAssessment := Option.some safety,
                           moderationStatus := moderationStatus,
                           uploadStatus := uploadStatusFor moderationStatus,
                           positivityScore := Option.some pos }) s.posts
      let audit1 := s.audit ++
        [{ action := if moderationStatus = ModerationStatus.auto_approved then
              AuditAction.publish
            else AuditAction.moderate,
           actorId := actorId, contentId := postId, contentType := ContentType.post,
           changes := AuditChanges.pipeline analysis safety moderationStatus pos }]
      ({ videos := s.videos, posts := posts1, queue := queue1, audit := audit1 },
        true, moderationStatus)
  | PipelineOutcome.failed _ =>
      let posts1 := updateRows (fun p => decide (p.id = postId))
        (fun p => { p with moderationStatus := ModerationStatus.requires_review,
                           uploadStatus := UploadStatus.UnderReview }) s.posts
      ({ videos := s.videos, posts := posts1, queue := s.queue, audit := s.audit },
        false, ModerationStatus.requires_review)

/-- The audit row appended by every call of `resolveModeration`. -/
def resolutionAuditEntry (contentId : Nat) (contentType : ContentType)
    (decision : Decision) (notes : Option String) (moderatorId : String) : AuditEntry :=
  { action := if decision = Decision.approved then AuditAction.publish
      else AuditAction.reject,
    actorId := moderatorId, contentId := contentId, contentType := contentType,
    changes := AuditChanges.resolution decision notes }

/-- Human resolution: set the content's statuses from the decision, mark every
queue entry with that content id resolved (filtering on content id only), and
append an audit row. -/
def resolveModeration (contentId : Nat) (contentType : ContentType) (decision : Decision)
    (notes : Option String) (moderatorId : String) (now : Int) (s : DBState) : DBState :=
  let moderationStatus := if decision = Decision.approved then ModerationStatus.auto_approved
    else ModerationStatus.rejected
  let uploadStatus := if decision = Decision.approved then UploadStatus.Published
    else UploadStatus.Flagged
  let videos1 :=
    if contentType = ContentType.video then
      updateRows (fun v => decide (v.id = contentId))
        (fun v => { v with moderationStatus := moderationStatus,
                           uploadStatus := uploadStatus,
                           moderationNotes := notes,
                           moderatedBy := Option.some moderatorId,
                           moderatedAt := Option.some now }) s.videos
    else s.videos
  let posts1 :=
    if contentType = ContentType.video then s.posts
    else
      updateRows (fun p => decide (p.id = contentId))
        (fun p => { p with moderationStatus := moderationStatus,
                           uploadStatus := uploadStatus }) s.posts
  let queue1 := updateRows (fun q => decide (q.contentId = contentId))
    (fun q => { q with status := QueueStatus.resolved }) s.queue
  { videos := videos1, posts := posts1, queue := queue1,
    audit := s.audit ++ [resolutionAuditEntry contentId contentType decision notes moderatorId] }

/-- Publish status is the fixed function of moderation status on a video row. -/
def videoConsistent (v : VideoRec) : Prop := v.uploadStatus = uploadStatusFor v.moderationStatus

/-- Publish status is the fixed function of moderation status on a post row. -/
def postConsistent (p : PostRec) : Prop := p.uploadStatus = uploadStatusFor p.moderationStatus

/-- The publish-status invariant over the whole state. -/
def dbConsistent (s : DBState) : Prop :=
  (∀ v ∈ s.videos, videoConsistent v) ∧ (∀ p ∈ s.posts, postConsistent p)

/-- State with one post row, used by concrete counterexamples and witnesses. -/
def dbWithPost : DBState :=
  { videos := [],
    posts := [{ id := 7, elementCategory := Option.none, safetyAssessment := Option.none,
                moderationStatus := ModerationStatus.requires_review,
                uploadStatus := UploadStatus.UnderReview, positivityScore := Option.none }],
    queue := [], audit := [] }

/-- Projection of a video row to its identity and the two status fields the
resolution claim talks about; `moderatedAt`, which `resolveModeration` stamps
with `new Date()` on every call, is deliberately outside the view. -/
def videoStatusView (v : VideoRec) : Nat × ModerationStatus × UploadStatus :=
  (v.id, v.moderationStatus, v.uploadStatus)

/-- State with one pending video-typed queue entry for content id 7,
used by the witness of the queue-resolution theorem. -/
def dbWithVideoQueueEntry : DBState :=
  { videos := [], posts := [],
    queue := [{ contentId := 7, contentType := ContentType.video,
                aiFlaggedReason := "flagged", priority := ModerationPriority.high,
                status := QueueStatus.pending }],
    audit := [] }

instance : DecidablePred videoConsistent := fun v => by
  unfold videoConsistent
  infer_instance

instance : DecidablePred postConsistent := fun p => by
  unfold postConsistent
  infer_instance

instance (s : DBState) : Decidable (dbConsistent s) := by
  unfold dbConsistent
  infer_instance

/-- Sample analysis result used by the decision-policy witness. -/
def demoAnalysis : AIAnalysisResult :=
  { elementType := ElementCategory.Water, confidence := 9/10, reasoning := "keywords" }

/-- Sample unsafe high-risk assessment used by the decision-policy witness. -/
def demoUnsafeHigh : SafetyAssessment :=
  { isSafe := false, flags := ["violence"], riskLevel := RiskLevel.high }

/-! ## Theorems -/

/-- Claim C5 counterexample: on the scenario text the fallback positivity score is
not 34 as claimed, because the positive keyword "hope" also matches inside the
word "hopeless" under substring matching. -/
theorem scenario_score_not_34 : ¬ fallbackPositivityScore scenarioText = 34 := by decide

/-- Claim C5 amended: the fallback positivity score of the scenario text is
39 = 50 + 5×1 − 8×2: one positive keyword hit ("hope", found as a substring of
"hopeless") and two negative keyword hits ("hate" and "hopeless"). -/
theorem scenario_score_is_39 :
    fallbackPositivityScore scenarioText = 39
      ∧ posHits scenarioText = ["hope"]
      ∧ negHits scenarioText = ["hate", "hopeless"] := by decide

/-- Claim C4: the safety screener returns the permissive assessment when no external
service is configured, and the conservative `api_error` assessment when the
configured service throws or answers with a non-OK response; being a total
function, it never throws. -/
theorem checkContentSafety_fallbacks :
    checkContentSafety SafetyService.unconfigured =
        { isSafe := true, flags := [], riskLevel := RiskLevel.none }
      ∧ checkContentSafety SafetyService.fetchFailure =
        { isSafe := false, flags := ["api_error"], riskLevel := RiskLevel.medium }
      ∧ checkContentSafety SafetyService.httpError =
        { isSafe := false, flags := ["api_error"], riskLevel := RiskLevel.medium } :=
  ⟨rfl, rfl, rfl⟩

/-- Claim C9: characterization of the derived risk level: high iff the response is
flagged and a high-severity category is among the flagged categories or more
than two categories are flagged; medium iff flagged with one or two flagged
categories none of which is high-severity; none iff unflagged or no category
flagged; and an unflagged response is safe with risk none. -/
theorem risk_level_characterization (r : ModApiResult) :
    ((assessModResult r).riskLevel = RiskLevel.high ↔
        r.flagged = true ∧
          ((∃ c ∈ flaggedCategories r, c ∈ highRiskCategories) ∨
            2 < (flaggedCategories r).length))
      ∧ ((assessModResult r).riskLevel = RiskLevel.medium ↔
        r.flagged = true ∧
          ¬ (∃ c ∈ flaggedCategories r, c ∈ highRiskCategories) ∧
          1 ≤ (flaggedCategories r).length ∧ (flaggedCategories r).length ≤ 2)
      ∧ ((assessModResult r).riskLevel = RiskLevel.none ↔
        r.flagged = false ∨ flaggedCategories r = [])
      ∧ (r.flagged = false →
        assessModResult r =
          { isSafe := true, flags := flaggedCategories r, riskLevel := RiskLevel.none }) := by
  unfold assessModResult
  cases hf : r.flagged with
  | false => simp [hf]
  | true =>
    by_cases hh : (flaggedCategories r).any (fun c => highRiskCategories.contains c) = true
    · have hx : ∃ c ∈ flaggedCategories r, c ∈ highRiskCategories := by
        simpa using hh
      have hne : ¬ flaggedCategories r = [] := by
        obtain ⟨c, hc, -⟩ := hx
        intro h
        rw [h] at hc
        simp at hc
      simp [hh, hx, hne]
    · have hx : ¬ ∃ c ∈ flaggedCategories r, c ∈ highRiskCategories := by
        simpa using hh
      by_cases h2 : 2 < (flaggedCategories r).length
      · have hne : ¬ flaggedCategories r = [] := by
          intro h
          rw [h] at h2
          simp at h2
        simp [hh, hx, h2, hne]
      · by_cases h0 : 0 < (flaggedCategories r).length
        · have hne : ¬ flaggedCategories r = [] := by
            intro h
            rw [h] at h0
            simp at h0
          simp [hh, hx, h2, h0, hne]
          omega
        · have he : flaggedCategories r = [] := by
            cases hfc : flaggedCategories r with
            | nil => rfl
            | cons a l => rw [hfc] at h0; simp at h0
          simp [hh, hx, h2, h0, he]

/-- Witness for `risk_level_characterization`: a response flagged for the
high-severity category yields risk level high. -/
theorem risk_level_characterization_witness :
    (assessModResult { flagged := true, categories := [("sexual/minors", true)] }).riskLevel =
      RiskLevel.high :=
  (risk_level_characterization _).1.mpr (by refine ⟨rfl, Or.inl ?_⟩; decide)

/-- Claim C7: every item of the ranked output is an input item whose tier is not
suppressed, and the output is pairwise ordered by tier and, within equal
tiers, by descending creation time.  The engine is a pure Lean function, hence
deterministic with no I/O or randomness, and `getVisibilityTier` assigns every
positivity score exactly one tier. -/
theorem applyPositivityRanking_spec (items : List FeedItem) :
    (∀ x, x ∈ applyPositivityRanking items →
        x ∈ items ∧ getVisibilityTier x.positivityScore ≠ VisibilityTier.suppressed)
      ∧ List.Pairwise rankLE (applyPositivityRanking items) := by
  constructor
  · intro x hx
    have hmem := (List.mem_insertionSort rankLE).1 hx
    rw [List.mem_filter] at hmem
    exact ⟨hmem.1, by simpa using hmem.2⟩
  · exact List.sorted_insertionSort rankLE _

/-- Witness for `applyPositivityRanking_spec` on the sample feed: the featured
item appears in the output, belongs to the input, is not suppressed, and the
output is sorted. -/
theorem applyPositivityRanking_spec_witness :
    (({ id := 1, positivityScore := Option.some 95, createdAt := 10 } : FeedItem) ∈ sampleFeed
        ∧ getVisibilityTier (({ id := 1, positivityScore := Option.some 95, createdAt := 10 } :
            FeedItem)).positivityScore ≠ VisibilityTier.suppressed)
      ∧ List.Pairwise rankLE (applyPositivityRanking sampleFeed) :=
  ⟨(applyPositivityRanking_spec sampleFeed).1 _ (by decide),
    (applyPositivityRanking_spec sampleFeed).2⟩

theorem keyMatch_iff (i : TrendInput) (r : TrendingRecord) :
    keyMatch i r = true ↔ recordKey r = inputKey i := by
  simp [keyMatch, recordKey, inputKey, Prod.ext_iff]

theorem keyMatch_applyTrend (i j : TrendInput) (r : TrendingRecord) :
    keyMatch i (applyTrend j r) = keyMatch i r := rfl

theorem recordKey_applyTrend (j : TrendInput) (r : TrendingRecord) :
    recordKey (applyTrend j r) = recordKey r := rfl

theorem recordKey_mkTrendRecord (i : TrendInput) :
    recordKey (mkTrendRecord i) = inputKey i := rfl

theorem keyMatch_exclusive {i j : TrendInput} (hij : inputKey i ≠ inputKey j)
    (r : TrendingRecord) : ¬ (keyMatch i r = true ∧ keyMatch j r = true) := by
  rintro ⟨h1, h2⟩
  exact hij (((keyMatch_iff i r).1 h1).symm.trans ((keyMatch_iff j r).1 h2))

theorem find?_updateFirst_self {α : Type} (p : α → Bool) (f : α → α) (l : List α) (m : α)
    (h : l.find? p = Option.some m) (hfm : p (f m) = true) :
    (updateFirst p f l).find? p = Option.some (f m) := by
  induction l with
  | nil => simp [List.find?] at h
  | cons x xs ih =>
    cases hpx : p x with
    | true =>
      have hm : m = x := by
        have hx : (x :: xs).find? p = Option.some x := by simp [List.find?, hpx]
        rw [h] at hx
        exact Option.some.inj hx
      subst hm
      simp [updateFirst, hpx, List.find?, hfm]
    | false =>
      have hxs : xs.find? p = Option.some m := by
        have heq : (x :: xs).find? p = xs.find? p := by simp [List.find?, hpx]
        rw [← heq]
        exact h
      simp [updateFirst, hpx, List.find?, ih hxs]

theorem updateFirst_eq_self {α : Type} (p : α → Bool) (f : α → α) (l : List α) (m : α)
    (h : l.find? p = Option.some m) (hm : f m = m) : updateFirst p f l = l := by
  induction l with
  | nil => rfl
  | cons x xs ih =>
    cases hpx : p x with
    | true =>
      have hmx : m = x := by
        have hx : (x :: xs).find? p = Option.some x := by simp [List.find?, hpx]
        rw [h] at hx
        exact Option.some.inj hx
      subst hmx
      simp [updateFirst, hpx, hm]
    | false =>
      have hxs : xs.find? p = Option.some m := by
        have heq : (x :: xs).find? p = xs.find? p := by simp [List.find?, hpx]
        rw [← heq]
        exact h
      simp [updateFirst, hpx, ih hxs]

theorem mem_updateFirst {α : Type} {p : α → Bool} {f : α → α} {l : List α} {x : α}
    (hx : x ∈ updateFirst p f l) : x ∈ l ∨ ∃ z ∈ l, x = f z := by
  induction l with
  | nil => simp [updateFirst] at hx
  | cons y ys ih =>
    cases hpy : p y with
    | true =>
      rw [updateFirst, if_pos hpy] at hx
      rcases List.mem_cons.1 hx with h | h
      · exact Or.inr ⟨y, List.mem_cons_self y ys, h⟩
      · exact Or.inl (List.mem_cons_of_mem y h)
    | false =>
      rw [updateFirst, if_neg (by simp [hpy])] at hx
      rcases List.mem_cons.1 hx with h | h
      · exact Or.inl (h ▸ List.mem_cons_self y ys)
      · rcases ih h with h' | ⟨z, hz, he⟩
        · exact Or.inl (List.mem_cons_of_mem y h')
        · exact Or.inr ⟨z, List.mem_cons_of_mem y hz, he⟩

theorem find?_updateFirst_other {α : Type} (p q : α → Bool) (f : α → α) (l : List α)
    (hpq : ∀ x, q x = true → p x = false) (hpf : ∀ x, p (f x) = p x) :
    (updateFirst q f l).find? p = l.find? p := by
  induction l with
  | nil => rfl
  | cons x xs ih =>
    cases hqx : q x with
    | true =>
      have hpx : p x = false := hpq x hqx
      have hpfx : p (f x) = false := by rw [hpf]; exact hpx
      simp [updateFirst, hqx, List.find?, hpx, hpfx]
    | false =>
      cases hpx : p x with
      | true => simp [updateFirst, hqx, List.find?, hpx]
      | false => simp [updateFirst, hqx, List.find?, hpx, ih]

theorem find?_append_of_some {α : Type} {p : α → Bool} {l : List α} {m : α}
    (h : l.find? p = Option.some m) (l' : List α) :
    (l ++ l').find? p = Option.some m := by
  induction l with
  | nil => simp [List.find?] at h
  | cons x xs ih =>
    cases hpx : p x with
    | true =>
      have hx : (x :: xs).find? p = Option.some x := by simp [List.find?, hpx]
      rw [h] at hx
      simp [List.find?, hpx]
      exact Option.some.inj hx.symm
    | false =>
      have hxs : xs.find? p = Option.some m := by
        have heq : (x :: xs).find? p = xs.find? p := by simp [List.find?, hpx]
        rw [← heq]
        exact h
      simp [List.find?, hpx, ih hxs]

theorem find?_append_of_none {α : Type} {p : α → Bool} {l : List α}
    (h : l.find? p = Option.none) (l' : List α) :
    (l ++ l').find? p = l'.find? p := by
  induction l with
  | nil => rfl
  | cons x xs ih =>
    cases hpx : p x with
    | true =>
      have hx : (x :: xs).find? p = Option.some x := by simp [List.find?, hpx]
      rw [h] at hx
      cases hx
    | false =>
      have hxs : xs.find? p = Option.none := by
        have heq : (x :: xs).find? p = xs.find? p := by simp [List.find?, hpx]
        rw [← heq]
        exact h
      simp [List.find?, hpx, ih hxs]

theorem find?_upsertTrend_self (s : List TrendingRecord) (i : TrendInput) :
    ∃ r, (upsertTrend s i).find? (keyMatch i) = Option.some r
      ∧ r.trendingScore = trendScore i ∧ r.viewCount24h = i.views
      ∧ r.engagementCount24h = i.engagement := by
  unfold upsertTrend
  cases hf : s.find? (keyMatch i) with
  | none =>
    refine ⟨mkTrendRecord i, ?_, rfl, rfl, rfl⟩
    rw [if_neg (by simp [hf]), find?_append_of_none hf]
    have hk : keyMatch i (mkTrendRecord i) = true := by
      simp [keyMatch, mkTrendRecord]
    simp [List.find?, hk]
  | some m =>
    refine ⟨applyTrend i m, ?_, rfl, rfl, rfl⟩
    rw [if_pos (by simp [hf])]
    apply find?_updateFirst_self _ _ _ _ hf
    rw [keyMatch_applyTrend]
    exact List.find?_some hf

theorem find?_upsertTrend_other {i j : TrendInput} (hij : inputKey i ≠ inputKey j)
    (s : List TrendingRecord) :
    (upsertTrend s j).find? (keyMatch i) = s.find? (keyMatch i) := by
  unfold upsertTrend
  cases hf : s.find? (keyMatch j) with
  | some m =>
    rw [if_pos (by simp [hf])]
    apply find?_updateFirst_other
    · intro r hqr
      cases hpr : keyMatch i r with
      | false => rfl
      | true => exact absurd ⟨hpr, hqr⟩ (keyMatch_exclusive hij r)
    · intro r
      exact keyMatch_applyTrend i j r
  | none =>
    rw [if_neg (by simp [hf])]
    cases hfi : s.find? (keyMatch i) with
    | some m => exact find?_append_of_some hfi _
    | none =>
      rw [find?_append_of_none hfi]
      have hk : keyMatch i (mkTrendRecord j) = false := by
        cases hkm : keyMatch i (mkTrendRecord j) with
        | false => rfl
        | true =>
          exfalso
          have h1 := (keyMatch_iff i (mkTrendRecord j)).1 hkm
          exact hij (h1.symm.trans (recordKey_mkTrendRecord j))
      simp [List.find?, hk]

theorem find?_runTrending_other (i : TrendInput) (items : List TrendInput)
    (h : ∀ j ∈ items, inputKey i ≠ inputKey j) (s : List TrendingRecord) :
    (runTrending s items).find? (keyMatch i) = s.find? (keyMatch i) := by
  induction items generalizing s with
  | nil => rfl
  | cons j rest ih =>
    have hstep : runTrending s (j :: rest) = runTrending (upsertTrend s j) rest := rfl
    rw [hstep, ih (fun k hk => h k (List.mem_cons_of_mem j hk)),
      find?_upsertTrend_other (h j (List.mem_cons_self j rest)) s]

theorem find?_runTrending_self (items : List TrendInput) (hd : distinctKeys items)
    (i : TrendInput) (hi : i ∈ items) (s : List TrendingRecord) :
    ∃ r, (runTrending s items).find? (keyMatch i) = Option.some r
      ∧ r.trendingScore = trendScore i ∧ r.viewCount24h = i.views
      ∧ r.engagementCount24h = i.engagement := by
  induction items generalizing s with
  | nil => cases hi
  | cons j rest ih =>
    have hpair := List.pairwise_cons.1 hd
    rcases List.mem_cons.1 hi with hij | hmem
    · subst hij
      obtain ⟨r, hr, h1, h2, h3⟩ := find?_upsertTrend_self s i
      refine ⟨r, ?_, h1, h2, h3⟩
      have hstep : runTrending s (i :: rest) = runTrending (upsertTrend s i) rest := rfl
      rw [hstep, find?_runTrending_other i rest (fun k hk => hpair.1 k hk) (upsertTrend s i), hr]
    · exact ih hpair.2 hmem (upsertTrend s j)

theorem runTrending_stable (items : List TrendInput) (s : List TrendingRecord)
    (h : ∀ i ∈ items, ∃ r, s.find? (keyMatch i) = Option.some r
        ∧ r.trendingScore = trendScore i ∧ r.viewCount24h = i.views
        ∧ r.engagementCount24h = i.engagement) :
    runTrending s items = s := by
  induction items with
  | nil => rfl
  | cons j rest ih =>
    obtain ⟨r, hr, h1, h2, h3⟩ := h j (List.mem_cons_self j rest)
    have hup : upsertTrend s j = s := by
      unfold upsertTrend
      rw [if_pos (by simp [hr])]
      apply updateFirst_eq_self _ _ _ r hr
      cases r with
      | mk cid ct ec ts vc e24 =>
        simp only [applyTrend] at h1 h2 h3 ⊢
        simp only [TrendingRecord.mk.injEq]
        exact ⟨trivial, trivial, trivial, h1.symm, h2.symm, h3.symm⟩
    have hstep : runTrending s (j :: rest) = runTrending (upsertTrend s j) rest := rfl
    rw [hstep, hup]
    exact ih (fun k hk => h k (List.mem_cons_of_mem j hk))

theorem runTrending_idem (items : List TrendInput) (hd : distinctKeys items)
    (s : List TrendingRecord) :
    runTrending (runTrending s items) items = runTrending s items :=
  runTrending_stable items _ (fun i hi => find?_runTrending_self items hd i hi s)

theorem uniqueRecordKeys_updateFirst (q : TrendingRecord → Bool) (j : TrendInput)
    (s : List TrendingRecord) (h : uniqueRecordKeys s) :
    uniqueRecordKeys (updateFirst q (applyTrend j) s) := by
  induction s with
  | nil => exact List.Pairwise.nil
  | cons x xs ih =>
    rcases List.pairwise_cons.1 h with ⟨hx, hxs⟩
    cases hqx : q x with
    | true =>
      rw [updateFirst, if_pos hqx]
      refine List.pairwise_cons.2 ⟨?_, hxs⟩
      intro b hb
      rw [recordKey_applyTrend]
      exact hx b hb
    | false =>
      rw [updateFirst, if_neg (by simp [hqx])]
      refine List.pairwise_cons.2 ⟨?_, ih hxs⟩
      intro b hb
      rcases mem_updateFirst hb with hb' | ⟨z, hz, he⟩
      · exact hx b hb'
      · rw [he, recordKey_applyTrend]
        exact hx z hz

theorem uniqueRecordKeys_upsertTrend (s : List TrendingRecord) (i : TrendInput)
    (h : uniqueRecordKeys s) : uniqueRecordKeys (upsertTrend s i) := by
  unfold upsertTrend
  cases hf : s.find? (keyMatch i) with
  | some m =>
    rw [if_pos (by simp [hf])]
    exact uniqueRecordKeys_updateFirst _ i s h
  | none =>
    rw [if_neg (by simp [hf])]
    unfold uniqueRecordKeys
    rw [List.pairwise_append]
    refine ⟨h, by simp, ?_⟩
    intro a ha b hb
    have hb' : b = mkTrendRecord i := by simpa using hb
    subst hb'
    have hfa := List.find?_eq_none.1 hf a ha
    intro hcontra
    apply hfa
    rw [keyMatch_iff]
    exact hcontra.trans (recordKey_mkTrendRecord i)

theorem uniqueRecordKeys_runTrending (items : List TrendInput) (s : List TrendingRecord)
    (h : uniqueRecordKeys s) : uniqueRecordKeys (runTrending s items) := by
  induction items generalizing s with
  | nil => exact h
  | cons j rest ih => exact ih _ (uniqueRecordKeys_upsertTrend s j h)

/-- Claim C8: with view, engagement and positivity inputs unchanged, recomputing an
element's trending scores twice equals recomputing once; the upsert keeps at
most one record per (content id, content type); and after a run every input's
record carries the score `views*0.6 + engagement*0.4` times the positivity
multiplier (no multiplier when positivity is absent), as computed by
`trendScore`. -/
theorem trending_idempotent (elem : ElementCategory) (vids : List VideoTrendRow)
    (psts : List PostTrendRow) (s : List TrendingRecord)
    (hv : (vids.map VideoTrendRow.id).Nodup) (hp : (psts.map PostTrendRow.id).Nodup)
    (hs : uniqueRecordKeys s) :
    calculateElementTrending elem vids psts (calculateElementTrending elem vids psts s)
        = calculateElementTrending elem vids psts s
      ∧ uniqueRecordKeys (calculateElementTrending elem vids psts s)
      ∧ ∀ i ∈ vids.map (videoTrendInput elem) ++ psts.map (postTrendInput elem),
          ∃ r, (calculateElementTrending elem vids psts s).find? (keyMatch i) = Option.some r
            ∧ r.trendingScore = trendScore i ∧ r.viewCount24h = i.views
            ∧ r.engagementCount24h = i.engagement := by
  have hdv : vids.Pairwise (fun a b => a.id ≠ b.id) := List.pairwise_map.1 hv
  have hdp : psts.Pairwise (fun a b => a.id ≠ b.id) := List.pairwise_map.1 hp
  have hd : distinctKeys (vids.map (videoTrendInput elem) ++ psts.map (postTrendInput elem)) := by
    unfold distinctKeys
    rw [List.pairwise_append]
    refine ⟨?_, ?_, ?_⟩
    · rw [List.pairwise_map]
      refine hdv.imp ?_
      intro a b hne heq
      apply hne
      have h1 := congrArg Prod.fst heq
      simpa [inputKey, videoTrendInput] using h1
    · rw [List.pairwise_map]
      refine hdp.imp ?_
      intro a b hne heq
      apply hne
      have h1 := congrArg Prod.fst heq
      simpa [inputKey, postTrendInput] using h1
    · intro a ha b hb
      rcases List.mem_map.1 ha with ⟨va, -, rfl⟩
      rcases List.mem_map.1 hb with ⟨pb, -, rfl⟩
      intro heq
      have h2 := congrArg Prod.snd heq
      simp [inputKey, videoTrendInput, postTrendInput] at h2
  exact ⟨runTrending_idem _ hd s, uniqueRecordKeys_runTrending _ s hs,
    fun i hi => find?_runTrending_self _ hd i hi s⟩

/-- Witness for `trending_idempotent` on a one-video, one-post input set over
the empty record table. -/
theorem trending_idempotent_witness :
    (demoVids.map VideoTrendRow.id).Nodup ∧ (demoPsts.map PostTrendRow.id).Nodup
      ∧ uniqueRecordKeys ([] : List TrendingRecord)
      ∧ calculateElementTrending ElementCategory.Water demoVids demoPsts
            (calculateElementTrending ElementCategory.Water demoVids demoPsts [])
          = calculateElementTrending ElementCategory.Water demoVids demoPsts [] :=
  ⟨by decide, by decide, List.Pairwise.nil,
    (trending_idempotent ElementCategory.Water demoVids demoPsts []
      (by decide) (by decide) List.Pairwise.nil).1⟩


theorem startsWithSeg_self (l : List Nat) : startsWithSeg l l = true := by
  induction l with
  | nil => rfl
  | cons x xs ih => simp [startsWithSeg, ih]

theorem segIncludes_append_left (l pat : List Nat) : segIncludes (l ++ pat) pat = true := by
  induction l with
  | nil =>
    cases pat with
    | nil => rfl
    | cons p ps => simp [segIncludes, startsWithSeg_self]
  | cons x xs ih => simp [segIncludes, ih]

theorem reason_includes (a b : String) : segIncludes (codes (a ++ b)) (codes b) = true := by
  have hc : codes (a ++ b) = codes a ++ codes b := by
    simp [codes, String.data_append]
  rw [hc]
  exact segIncludes_append_left _ _

theorem mem_updateRows_of {α : Type} (m : α → Bool) (f : α → α) (l : List α) (P : α → Prop)
    (hl : ∀ x ∈ l, P x) (hf : ∀ x, P (f x)) : ∀ y ∈ updateRows m f l, P y := by
  intro y hy
  rcases List.mem_map.1 hy with ⟨z, hz, heq⟩
  by_cases hmz : m z = true
  · rw [if_pos hmz] at heq
    exact heq ▸ hf z
  · rw [if_neg hmz] at heq
    exact heq ▸ hl z hz

theorem updateRows_idem {α : Type} (m : α → Bool) (f : α → α)
    (hm : ∀ x, m (f x) = m x) (hf : ∀ x, f (f x) = f x) (l : List α) :
    updateRows m f (updateRows m f l) = updateRows m f l := by
  unfold updateRows
  rw [List.map_map]
  apply List.map_congr_left
  intro a _
  by_cases hma : m a = true
  · simp only [Function.comp_apply, if_pos hma, hm a, hma, if_pos, hf a]
  · simp only [Function.comp_apply, if_neg hma]

/-- Claim C1: the automatic moderation decision is first-match-wins in (safety
assessment, classifier confidence, content type): unsafe with high risk gives
rejected plus an urgent queue entry; unsafe otherwise gives requires-review
plus a high-priority entry; a safe video with confidence below 0.5 gives
requires-review plus a normal-priority entry whose reason includes the
numeric confidence, while a safe post is auto-approved regardless of
confidence; otherwise auto-approved with no queue entry.  Both operations are
pure functions of these inputs, hence deterministic. -/
theorem moderation_decision_policy (videoId postId : Nat) (actorId : String)
    (analysis : AIAnalysisResult) (safety : SafetyAssessment) (pos : Int) (s : DBState) :
    (safety.isSafe = false → safety.riskLevel = RiskLevel.high →
      (processVideoUpload videoId actorId (PipelineOutcome.ok analysis safety pos) s).2.2
          = ModerationStatus.rejected
        ∧ (processVideoUpload videoId actorId (PipelineOutcome.ok analysis safety pos) s).1.queue
          = s.queue ++ [{ contentId := videoId, contentType := ContentType.video,
                          aiFlaggedReason := String.intercalate (", ") safety.flags,
                          priority := ModerationPriority.urgent, status := QueueStatus.pending }]
        ∧ (processPostCreation postId actorId (PipelineOutcome.ok analysis safety pos) s).2.2
          = ModerationStatus.rejected
        ∧ (processPostCreation postId actorId (PipelineOutcome.ok analysis safety pos) s).1.queue
          = s.queue ++ [{ contentId := postId, contentType := ContentType.post,
                          aiFlaggedReason := String.intercalate (", ") safety.flags,
                          priority := ModerationPriority.urgent, status := QueueStatus.pending }])
    ∧ (safety.isSafe = false → safety.riskLevel ≠ RiskLevel.high →
      (processVideoUpload videoId actorId (PipelineOutcome.ok analysis safety pos) s).2.2
          = ModerationStatus.requires_review
        ∧ (processVideoUpload videoId actorId (PipelineOutcome.ok analysis safety pos) s).1.queue
          = s.queue ++ [{ contentId := videoId, contentType := ContentType.video,
                          aiFlaggedReason := String.intercalate (", ") safety.flags,
                          priority := ModerationPriority.high, status := QueueStatus.pending }]
        ∧ (processPostCreation postId actorId (PipelineOutcome.ok analysis safety pos) s).2.2
          = ModerationStatus.requires_review
        ∧ (processPostCreation postId actorId (PipelineOutcome.ok analysis safety pos) s).1.queue
          = s.queue ++ [{ contentId := postId, contentType := ContentType.post,
                          aiFlaggedReason := String.intercalate (", ") safety.flags,
                          priority := ModerationPriority.high, status := QueueStatus.pending }])
    ∧ (safety.isSafe = true → analysis.confidence < 1/2 →
      (processVideoUpload videoId actorId (PipelineOutcome.ok analysis safety pos) s).2.2
          = ModerationStatus.requires_review
        ∧ (processVideoUpload videoId actorId (PipelineOutcome.ok analysis safety pos) s).1.queue
          = s.queue ++ [{ contentId := videoId, contentType := ContentType.video,
                          aiFlaggedReason :=
                          "Low categorization confidence: " ++ toString analysis.confidence,
                          priority := ModerationPriority.normal, status := QueueStatus.pending }]
        ∧ segIncludes
            (codes ("Low categorization confidence: " ++ toString analysis.confidence))
            (codes (toString analysis.confidence)) = true
        ∧ (processPostCreation postId actorId (PipelineOutcome.ok analysis safety pos) s).2.2
          = ModerationStatus.auto_approved
        ∧ (processPostCreation postId actorId (PipelineOutcome.ok analysis safety pos) s).1.queue
          = s.queue)
    ∧ (safety.isSafe = true → ¬ analysis.confidence < 1/2 →
      (processVideoUpload videoId actorId (PipelineOutcome.ok analysis safety pos) s).2.2
          = ModerationStatus.auto_approved
        ∧ (processVideoUpload videoId actorId (PipelineOutcome.ok analysis safety pos) s).1.queue
          = s.queue
        ∧ (processPostCreation postId actorId (PipelineOutcome.ok analysis safety pos) s).2.2
          = ModerationStatus.auto_approved
        ∧ (processPostCreation postId actorId (PipelineOutcome.ok analysis safety pos) s).1.queue
          = s.queue) := by
  refine ⟨?_, ?_, ?_, ?_⟩
  · intro h1 h2
    refine ⟨?_, ?_, ?_, ?_⟩ <;> simp [processVideoUpload, processPostCreation, h1, h2]
  · intro h1 h2
    refine ⟨?_, ?_, ?_, ?_⟩ <;> simp [processVideoUpload, processPostCreation, h1, h2]
  · intro h1 h2
    rw [one_div] at h2
    refine ⟨?_, ?_, ?_, ?_, ?_⟩
    · simp [processVideoUpload, h1, h2]
    · simp [processVideoUpload, h1, h2]
    · exact reason_includes _ _
    · simp [processPostCreation, h1]
    · simp [processPostCreation, h1]
  · intro h1 h2
    rw [one_div] at h2
    refine ⟨?_, ?_, ?_, ?_⟩ <;> simp [processVideoUpload, processPostCreation, h1, h2]

/-- Witness for `moderation_decision_policy`: an unsafe high-risk assessment
rejects the video. -/
theorem moderation_decision_policy_witness :
    demoUnsafeHigh.isSafe = false ∧ demoUnsafeHigh.riskLevel = RiskLevel.high
      ∧ (processVideoUpload 1 ("admin") (PipelineOutcome.ok demoAnalysis demoUnsafeHigh 10)
          dbWithPost).2.2 = ModerationStatus.rejected :=
  ⟨rfl, rfl,
    ((moderation_decision_policy 1 2 ("admin") demoAnalysis demoUnsafeHigh 10 dbWithPost).1
      rfl rfl).1⟩

/-- Claim C2 counterexample: on a pipeline failure for a post, the post is forced
to requires-review and Under Review, but no moderation-queue entry is created,
contradicting the claim that every content item gets a high-priority queue
entry naming the failure. -/
theorem post_failure_creates_no_queue_entry :
    (processPostCreation 7 ("system") (PipelineOutcome.failed ("pipeline crashed"))
        dbWithPost).2.2 = ModerationStatus.requires_review
      ∧ (processPostCreation 7 ("system") (PipelineOutcome.failed ("pipeline crashed"))
        dbWithPost).1.queue = [] :=
  ⟨rfl, rfl⟩

/-- Claim C2 amended: on an unhandled pipeline exception the item lands in
requires-review with publish status Under Review for both videos and posts,
and for videos only a queue entry with priority high and a reason naming the
failure is inserted; for posts the queue is left unchanged. -/
theorem pipeline_failure_state (videoId postId : Nat) (actorId msg : String) (s : DBState) :
    (∀ v ∈ (processVideoUpload videoId actorId (PipelineOutcome.failed msg) s).1.videos,
        v.id = videoId → v.moderationStatus = ModerationStatus.requires_review
          ∧ v.uploadStatus = UploadStatus.UnderReview)
      ∧ (processVideoUpload videoId actorId (PipelineOutcome.failed msg) s).1.queue
        = s.queue ++ [{ contentId := videoId, contentType := ContentType.video,
                        aiFlaggedReason := "Processing error: " ++ msg,
                        priority := ModerationPriority.high, status := QueueStatus.pending }]
      ∧ segIncludes (codes ("Processing error: " ++ msg)) (codes msg) = true
      ∧ (processVideoUpload videoId actorId (PipelineOutcome.failed msg) s).2.2
        = ModerationStatus.requires_review
      ∧ (∀ p ∈ (processPostCreation postId actorId (PipelineOutcome.failed msg) s).1.posts,
          p.id = postId → p.moderationStatus = ModerationStatus.requires_review
            ∧ p.uploadStatus = UploadStatus.UnderReview)
      ∧ (processPostCreation postId actorId (PipelineOutcome.failed msg) s).1.queue = s.queue
      ∧ (processPostCreation postId actorId (PipelineOutcome.failed msg) s).2.2
        = ModerationStatus.requires_review := by
  refine ⟨?_, rfl, reason_includes _ _, rfl, ?_, rfl, rfl⟩
  · intro v hv hid
    rcases List.mem_map.1 hv with ⟨z, hz, heq⟩
    by_cases hzid : z.id = videoId
    · rw [if_pos (by simpa using hzid)] at heq
      rw [← heq]
      exact ⟨rfl, rfl⟩
    · rw [if_neg (by simpa using hzid)] at heq
      rw [← heq] at hid
      exact absurd hid hzid
  · intro p hp hid
    rcases List.mem_map.1 hp with ⟨z, hz, heq⟩
    by_cases hzid : z.id = postId
    · rw [if_pos (by simpa using hzid)] at heq
      rw [← heq]
      exact ⟨rfl, rfl⟩
    · rw [if_neg (by simpa using hzid)] at heq
      rw [← heq] at hid
      exact absurd hid hzid

/-- Witness for `pipeline_failure_state` on the one-post state: the failed
post run leaves the queue unchanged and reports requires-review. -/
theorem pipeline_failure_state_witness :
    (({ id := 7, elementCategory := Option.none, safetyAssessment := Option.none,
        moderationStatus := ModerationStatus.requires_review,
        uploadStatus := UploadStatus.UnderReview, positivityScore := Option.none } : PostRec)
          ∈ (processPostCreation 7 ("system") (PipelineOutcome.failed ("boom")) dbWithPost).1.posts
        → (7 : Nat) = 7
        → ({ id := 7, elementCategory := Option.none, safetyAssessment := Option.none,
              moderationStatus := ModerationStatus.requires_review,
              uploadStatus := UploadStatus.UnderReview,
              positivityScore := Option.none } : PostRec).moderationStatus
              = ModerationStatus.requires_review
            ∧ ({ id := 7, elementCategory := Option.none, safetyAssessment := Option.none,
                  moderationStatus := ModerationStatus.requires_review,
                  uploadStatus := UploadStatus.UnderReview,
                  positivityScore := Option.none } : PostRec).uploadStatus
              = UploadStatus.UnderReview)
      ∧ (processPostCreation 7 ("system") (PipelineOutcome.failed ("boom")) dbWithPost).1.queue
        = dbWithPost.queue :=
  ⟨fun hmem _ => (pipeline_failure_state 1 7 ("system") ("boom") dbWithPost).2.2.2.2.1 _ hmem rfl,
    (pipeline_failure_state 1 7 ("system") ("boom") dbWithPost).2.2.2.2.2.1⟩

/-- Claim C3 counterexample: resolving the same content twice with the same
decision appends a second, identical audit entry: after two calls the audit
log holds the same entry twice, so the second call is not audit-free. -/
theorem resolve_twice_appends_duplicate_audit :
    (resolveModeration 7 ContentType.post Decision.approved Option.none ("mod") 0
        (resolveModeration 7 ContentType.post Decision.approved Option.none ("mod") 0
          dbWithPost)).audit
      = [resolutionAuditEntry 7 ContentType.post Decision.approved Option.none ("mod"),
         resolutionAuditEntry 7 ContentType.post Decision.approved Option.none ("mod")]
    ∧ (resolveModeration 7 ContentType.post Decision.approved Option.none ("mod") 0
        dbWithPost).audit
      = [resolutionAuditEntry 7 ContentType.post Decision.approved Option.none ("mod")] :=
  ⟨rfl, rfl⟩

theorem map_view_updateRows_updateRows {α β : Type} (m : α → Bool) (f1 f2 : α → α)
    (view : α → β) (hm : ∀ x, m (f1 x) = m x) (hv : ∀ x, view (f2 (f1 x)) = view (f1 x))
    (l : List α) :
    (updateRows m f2 (updateRows m f1 l)).map view = (updateRows m f1 l).map view := by
  unfold updateRows
  simp only [List.map_map]
  apply List.map_congr_left
  intro a _
  by_cases hma : m a = true
  · simp only [Function.comp_apply, if_pos hma, hm a, hma, if_pos, hv a]
  · simp only [Function.comp_apply, if_neg hma]

/-- Claim C3 amended: a second resolution with the same decision — whatever
timestamps the two calls run at, since the code stamps `moderatedAt` with
`new Date()` internally — keeps the moderation and publish statuses of the
content rows at the values set by the first call, leaves the queue exactly as
after the first call (matching entries stay resolved; resolving twice is not
an error), but each call unconditionally appends an audit entry, so the
second call appends a duplicate audit entry. -/
theorem resolve_twice_statuses_stable (contentId : Nat) (ctype : ContentType)
    (decision : Decision) (notes : Option String) (moderatorId : String)
    (now1 now2 : Int) (s : DBState) :
    (resolveModeration contentId ctype decision notes moderatorId now2
        (resolveModeration contentId ctype decision notes moderatorId now1 s)).videos.map
          videoStatusView
      = (resolveModeration contentId ctype decision notes moderatorId now1 s).videos.map
          videoStatusView
    ∧ (resolveModeration contentId ctype decision notes moderatorId now2
        (resolveModeration contentId ctype decision notes moderatorId now1 s)).posts
      = (resolveModeration contentId ctype decision notes moderatorId now1 s).posts
    ∧ (resolveModeration contentId ctype decision notes moderatorId now2
        (resolveModeration contentId ctype decision notes moderatorId now1 s)).queue
      = (resolveModeration contentId ctype decision notes moderatorId now1 s).queue
    ∧ (∀ q ∈ (resolveModeration contentId ctype decision notes moderatorId now2
          (resolveModeration contentId ctype decision notes moderatorId now1 s)).queue,
        q.contentId = contentId → q.status = QueueStatus.resolved)
    ∧ (resolveModeration contentId ctype decision notes moderatorId now2
        (resolveModeration contentId ctype decision notes moderatorId now1 s)).audit
      = (resolveModeration contentId ctype decision notes moderatorId now1 s).audit
        ++ [resolutionAuditEntry contentId ctype decision notes moderatorId] := by
  refine ⟨?_, ?_, ?_, ?_, rfl⟩
  · cases ctype with
    | video =>
      apply map_view_updateRows_updateRows
      · intro x
        rfl
      · intro x
        rfl
    | post => rfl
  · cases ctype with
    | video => rfl
    | post =>
      apply updateRows_idem
      · intro x
        rfl
      · intro x
        rfl
  · apply updateRows_idem
    · intro x
      rfl
    · intro x
      rfl
  · intro q hq hid
    rcases List.mem_map.1 hq with ⟨z, hz, heq⟩
    by_cases hzid : z.contentId = contentId
    · rw [if_pos (by simpa using hzid)] at heq
      rw [← heq]
    · rw [if_neg (by simpa using hzid)] at heq
      rw [← heq] at hid
      exact absurd hid hzid

/-- Witness for `resolve_twice_statuses_stable`: with two distinct timestamps
(3 and 5), the video-typed entry for content id 7 is still resolved after the
second post-typed resolution call. -/
theorem resolve_twice_statuses_stable_witness :
    ({ contentId := 7, contentType := ContentType.video, aiFlaggedReason := "flagged",
        priority := ModerationPriority.high, status := QueueStatus.resolved } : QueueEntry)
        ∈ (resolveModeration 7 ContentType.post Decision.approved Option.none ("mod") 5
            (resolveModeration 7 ContentType.post Decision.approved Option.none ("mod") 3
              dbWithVideoQueueEntry)).queue
      ∧ ({ contentId := 7, contentType := ContentType.video, aiFlaggedReason := "flagged",
            priority := ModerationPriority.high, status := QueueStatus.resolved } :
            QueueEntry).status = QueueStatus.resolved :=
  ⟨by decide,
    (resolve_twice_statuses_stable 7 ContentType.post Decision.approved Option.none ("mod")
      3 5 dbWithVideoQueueEntry).2.2.2.1 _ (by decide) rfl⟩

/-- Claim C6: every write path of the orchestrator (normal and exception, videos and
posts) and of human resolution preserves the invariant that a row's publish
status equals the fixed mapping of its moderation status (auto-approved to
Published, rejected to Flagged, requires-review to Under Review). -/
theorem publish_status_invariant (s : DBState) (hs : dbConsistent s)
    (videoId postId contentId : Nat) (actorId moderatorId : String)
    (pipeV pipeP : PipelineOutcome) (ctype : ContentType) (decision : Decision)
    (notes : Option String) (now : Int) :
    dbConsistent (processVideoUpload videoId actorId pipeV s).1
      ∧ dbConsistent (processPostCreation postId actorId pipeP s).1
      ∧ dbConsistent (resolveModeration contentId ctype decision notes moderatorId now s) := by
  refine ⟨?_, ?_, ?_⟩
  · cases pipeV with
    | ok analysis safety pos =>
      refine ⟨?_, hs.2⟩
      exact mem_updateRows_of _ _ _ _ hs.1 (fun v => rfl)
    | failed msg =>
      refine ⟨?_, hs.2⟩
      exact mem_updateRows_of _ _ _ _ hs.1 (fun v => rfl)
  · cases pipeP with
    | ok analysis safety pos =>
      refine ⟨hs.1, ?_⟩
      exact mem_updateRows_of _ _ _ _ hs.2 (fun p => rfl)
    | failed msg =>
      refine ⟨hs.1, ?_⟩
      exact mem_updateRows_of _ _ _ _ hs.2 (fun p => rfl)
  · cases ctype with
    | video =>
      refine ⟨?_, ?_⟩
      · simp only [resolveModeration, if_pos]
        apply mem_updateRows_of _ _ _ _ hs.1
        intro v
        cases decision with
        | approved => exact rfl
        | rejected => exact rfl
      · simp only [resolveModeration]
        exact hs.2
    | post =>
      refine ⟨?_, ?_⟩
      · simp only [resolveModeration]
        exact hs.1
      · simp only [resolveModeration, if_neg]
        apply mem_updateRows_of _ _ _ _ hs.2
        intro p
        cases decision with
        | approved => exact rfl
        | rejected => exact rfl

/-- Witness for `publish_status_invariant` on the one-post state with a failed
pipeline and a post approval. -/
theorem publish_status_invariant_witness :
    dbConsistent dbWithPost
      ∧ dbConsistent (processVideoUpload 1 ("system") (PipelineOutcome.failed ("boom"))
          dbWithPost).1 :=
  ⟨by decide,
    (publish_status_invariant dbWithPost (by decide) 1 2 3 ("system") ("mod")
      (PipelineOutcome.failed ("boom")) (PipelineOutcome.failed ("boom")) ContentType.post
      Decision.approved Option.none 0).1⟩

/-- Claim C10: the queue update of human resolution filters on content id only: its
result does not depend on the content type passed to the call, every queue
entry carrying the resolved content id is marked resolved whatever its own
content type, and entries with other content ids survive unchanged. -/
theorem resolve_queue_ignores_content_type (contentId : Nat) (decision : Decision)
    (notes : Option String) (moderatorId : String) (now : Int) (s : DBState) :
    (resolveModeration contentId ContentType.video decision notes moderatorId now s).queue
      = (resolveModeration contentId ContentType.post decision notes moderatorId now s).queue
    ∧ (∀ ctype, ∀ q ∈ (resolveModeration contentId ctype decision notes moderatorId now s).queue,
        q.contentId = contentId → q.status = QueueStatus.resolved)
    ∧ (∀ ctype, ∀ q ∈ s.queue, q.contentId ≠ contentId →
        q ∈ (resolveModeration contentId ctype decision notes moderatorId now s).queue) := by
  refine ⟨rfl, ?_, ?_⟩
  · intro ctype q hq hid
    rcases List.mem_map.1 hq with ⟨z, hz, heq⟩
    by_cases hzid : z.contentId = contentId
    · rw [if_pos (by simpa using hzid)] at heq
      rw [← heq]
    · rw [if_neg (by simpa using hzid)] at heq
      rw [← heq] at hid
      exact absurd hid hzid
  · intro ctype q hq hid
    apply List.mem_map.2
    refine ⟨q, hq, ?_⟩
    rw [if_neg (by simpa using hid)]

/-- Witness for `resolve_queue_ignores_content_type`: a post-typed resolution
call resolves the pending video-typed queue entry for the same content id. -/
theorem resolve_queue_ignores_content_type_witness :
    ({ contentId := 7, contentType := ContentType.video, aiFlaggedReason := "flagged",
        priority := ModerationPriority.high, status := QueueStatus.resolved } : QueueEntry)
        ∈ (resolveModeration 7 ContentType.post Decision.approved Option.none ("mod") 0
            dbWithVideoQueueEntry).queue
      ∧ ({ contentId := 7, contentType := ContentType.video, aiFlaggedReason := "flagged",
           priority := ModerationPriority.high, status := QueueStatus.resolved } :
            QueueEntry).status = QueueStatus.resolved :=
  ⟨by decide,
    (resolve_queue_ignores_content_type 7 Decision.approved Option.none ("mod") 0
      dbWithVideoQueueEntry).2.1 ContentType.post _ (by decide) rfl⟩
